import Mathlib

/-!
Verification of the BrowserOS web-app core (`src/web-app/js/llm-providers.js`,
`src/web-app/js/settings.js`): the tab/navigation state machine
(`BrowserCore`) and the command-to-action pipeline (`Agent`), shallowly
embedded in Lean.  JavaScript objects become structures, the mutable
`this`-state becomes explicit state passing, nullable fields become `Option`,
and the per-tab history map becomes an association list keyed by tab id.
-/

namespace BrowserOS

/-! ## NavigationHistory

`BrowserCore` keeps, per tab, `this.history[tabId] = { stack: [], index: -1 }`
(llm-providers.js line 931).  `index` can be `-1`, so it is modelled as `Int`.
-/

structure Hist where
  stack : List String
  index : Int
  deriving Repr, DecidableEq

/-- The freshly initialised history `{ stack: [], index: -1 }`. -/
def Hist.init : Hist := { stack := [], index := -1 }

/-- The history update inlined in `BrowserCore.navigate`
(llm-providers.js lines 993–996):
`stack = stack.slice(0, index + 1); stack.push(url); index = stack.length - 1`. -/
def histPush (h : Hist) (url : String) : Hist :=
  let stack := h.stack.take (h.index + 1).toNat ++ [url]
  { stack := stack, index := (stack.length : Int) - 1 }

/-- The history update inlined in `BrowserCore.goBack`
(llm-providers.js lines 1123–1124): guarded by `history.index > 0`,
then `history.index--`; otherwise nothing happens. -/
def histBack (h : Hist) : Hist :=
  if 0 < h.index then { h with index := h.index - 1 } else h

/-- The history update inlined in `BrowserCore.goForward`
(llm-providers.js lines 1139–1140): guarded by
`history.index < history.stack.length - 1`, then `history.index++`. -/
def histForward (h : Hist) : Hist :=
  if h.index < (h.stack.length : Int) - 1 then { h with index := h.index + 1 } else h

/-- One abstract operation on a tab's `NavigationHistory`. -/
inductive HistOp where
  | push (url : String)
  | back
  | forward
  deriving Repr, DecidableEq

def histStep (h : Hist) : HistOp → Hist
  | .push url => histPush h url
  | .back => histBack h
  | .forward => histForward h

/-- Apply a sequence of operations, oldest first. -/
def histRun (h : Hist) (ops : List HistOp) : Hist :=
  ops.foldl histStep h

/-- The spec's NavigationHistory invariant. -/
def HistInv (h : Hist) : Prop :=
  (-1 ≤ h.index ∧ h.index ≤ (h.stack.length : Int) - 1) ∧
    (h.index = -1 ↔ h.stack = [])

instance (h : Hist) : Decidable (HistInv h) := by
  unfold HistInv; infer_instance

/-! ## UrlResolver (`BrowserCore.parseUrl`, llm-providers.js lines 1006–1022) -/

/-- Modelled from the platform: `String.prototype.trim` — strip leading and
trailing whitespace. -/
def jsTrim (s : String) : String :=
  String.mk
    (((s.data.dropWhile Char.isWhitespace).reverse.dropWhile Char.isWhitespace).reverse)

/-- Modelled from the platform: `String.prototype.toLowerCase` (ASCII
case-folding, character by character). -/
def jsToLower (s : String) : String :=
  String.mk (s.data.map Char.toLower)

/-- The character class `[\w-]` of the domain pattern: JavaScript's `\w`
(`[A-Za-z0-9_]`, ASCII) extended with `-`. -/
def isWordDash (c : Char) : Bool :=
  c.isAlphanum || c = '_' || c = '-'

/-- Scanner for the anchored search `/^[\w-]+(\.[\w-]+)+/` after one `[\w-]`
character has been consumed: the match succeeds iff the run of `[\w-]`
characters continues until a `.` followed by a further `[\w-]` character
(one repetition of the group suffices; the pattern has no end anchor, so
trailing text is ignored, and since `.` is outside `[\w-]` greedy matching
never needs to backtrack). -/
def domainTail : List Char → Bool
  | [] => false
  | '.' :: rest =>
    match rest with
    | [] => false
    | d :: _ => isWordDash d
  | c :: rest => isWordDash c && domainTail rest

/-- `input.match(/^[\w-]+(\.[\w-]+)+/)` is truthy (llm-providers.js
line 1016). -/
def matchesDomain (input : String) : Bool :=
  match input.toList with
  | [] => false
  | c :: rest => isWordDash c && domainTail rest

/-- Modelled from the platform: whether `new URL(input)` succeeds, which is
what the `try { new URL(input) } catch` at llm-providers.js lines 1008–1013
tests. A URL string must open with a scheme — an ASCII letter, then
`[A-Za-z0-9+.-]*`, then `:` (the WHATWG scheme grammar); this scanner checks
exactly that and abstracts away the rarer post-scheme failure modes. -/
def schemeTail : List Char → Bool
  | [] => false
  | ':' :: _ => true
  | c :: rest => (c.isAlphanum || c = '+' || c = '-' || c = '.') && schemeTail rest

/-- `new URL(input)` succeeds: see `schemeTail`. `url.href` normalisation is
modelled as the identity on the input. -/
def parsesAsURL (input : String) : Bool :=
  match input.toList with
  | [] => false
  | c :: rest => c.isAlpha && schemeTail rest

/-- Modelled from the platform: the characters `encodeURIComponent` leaves
unescaped — ASCII alphanumerics and `- _ . ! ~ * ' ( )` (the `'` is
character 39). -/
def isUnescaped (c : Char) : Bool :=
  c.isAlphanum || c = '-' || c = '_' || c = '.' || c = '!' || c = '~' ||
    c = '*' || c.toNat = 39 || c = '(' || c = ')'

/-- Uppercase hexadecimal digit for `n < 16`. -/
def hexDigit (n : Nat) : Char :=
  if n < 10 then Char.ofNat (48 + n) else Char.ofNat (55 + n)

/-- The UTF-8 bytes of a character, as `encodeURIComponent` escapes them. -/
def utf8Bytes (c : Char) : List Nat :=
  let n := c.toNat
  if n < 128 then [n]
  else if n < 2048 then [192 + n / 64, 128 + n % 64]
  else if n < 65536 then [224 + n / 4096, 128 + n / 64 % 64, 128 + n % 64]
  else [240 + n / 262144, 128 + n / 4096 % 64, 128 + n / 64 % 64, 128 + n % 64]

/-- `%XX` escape of one byte. -/
def percentByte (b : Nat) : String :=
  String.mk ['%', hexDigit (b / 16), hexDigit (b % 16)]

/-- Modelled from the platform: `encodeURIComponent` (called at
llm-providers.js line 1021). -/
def encodeURIComponent (s : String) : String :=
  String.join (s.toList.map fun c =>
    if isUnescaped c then String.mk [c] else String.join ((utf8Bytes c).map percentByte))

/-- `BrowserCore.parseUrl` (llm-providers.js lines 1006–1022): an input that
parses as a URL is used as-is; else a bare-domain-shaped input is prefixed
with `https://`; else the input becomes a Google search URL with the input
percent-encoded. -/
def parseUrl (input : String) : String :=
  if parsesAsURL input then input
  else if matchesDomain input then "https://" ++ input
  else "https://www.google.com/search?q=" ++ encodeURIComponent input

/-! ## BrowserCore tab registry (llm-providers.js lines 849–1174)

Tab ids in the source are the strings `tab-${n}` produced from the monotone
counter `this.tabIdCounter`; they are modelled by the counter value `n`.
-/

structure Tab where
  id : Nat
  title : String
  url : Option String
  favicon : Option String
  isHome : Bool
  deriving Repr, DecidableEq

/-- `Array.prototype.findIndex`, as an option: the source compares the
result against `-1`, which `none` stands for. -/
def findIndex (p : α → Bool) : List α → Option Nat
  | [] => none
  | a :: l => if p a then some 0 else (findIndex p l).map (· + 1)

/-- JavaScript truthiness of a nullable string (`!url`, `if (url)`):
`null` and the empty string are falsy. -/
def truthy : Option String → Bool
  | none => false
  | some s => !s.data.isEmpty

/-- The `BrowserCore` state (constructor, llm-providers.js lines 850–858):
the ordered tab list, the active-tab pointer, the per-tab history map, the
id counter, and — standing in for the embedded frame — `loadRequest`, the
URL the frame was last told to load (`loadUrl url`), `none` after
`showWelcomePage`. -/
structure BState where
  tabs : List Tab
  activeTabId : Option Nat
  history : List (Nat × Hist)
  tabIdCounter : Nat
  loadRequest : Option String
  deriving Repr, DecidableEq

def BState.start : BState :=
  { tabs := [], activeTabId := none, history := [], tabIdCounter := 0, loadRequest := none }

/-- `this.tabs.find(t => t.id === tabId)`. -/
def findTab (s : BState) (tabId : Nat) : Option Tab :=
  s.tabs.find? (fun t => t.id = tabId)

/-- `BrowserCore.getActiveTab` (llm-providers.js lines 975–977). -/
def getActiveTab (s : BState) : Option Tab :=
  match s.activeTabId with
  | none => none
  | some aid => findTab s aid

/-- `this.history[tabId]` lookup. -/
def findHist (s : BState) (tabId : Nat) : Option Hist :=
  (s.history.find? (fun p => p.1 = tabId)).map (·.2)

/-- `BrowserCore.switchToTab` (llm-providers.js lines 959–973), UI rendering
dropped: an unknown id is a no-op; otherwise the tab becomes active and the
frame shows the welcome page (home tab or falsy URL) or loads the tab's
URL. -/
def switchToTab (s : BState) (tabId : Nat) : BState :=
  match findTab s tabId with
  | none => s
  | some tab =>
    { s with activeTabId := some tabId,
             loadRequest := if tab.isHome || !truthy tab.url then none else tab.url }

/-- `BrowserCore.navigate` (llm-providers.js lines 979–1004), UI rendering
dropped. Falsy or whitespace-only input returns immediately; otherwise the
trimmed input is resolved by `parseUrl`, assigned to the active tab (marked
non-home, title `Loading...`), pushed onto that tab's history when the map
has an entry for it, and handed to the frame. -/
def navigate (s : BState) (input : String) : BState :=
  if jsTrim input = "" then s
  else
    let url := parseUrl (jsTrim input)
    match getActiveTab s with
    | none => s
    | some tab =>
      { s with
        tabs := s.tabs.map fun t =>
          if t.id = tab.id then { t with url := some url, isHome := false, title := "Loading..." }
          else t,
        history := s.history.map fun p =>
          if p.1 = tab.id then (p.1, histPush p.2 url) else p,
        loadRequest := some url }

/-- `BrowserCore.createNewTab` (llm-providers.js lines 920–940): a fresh id
from the incremented counter, a `New Tab` tab (home iff the URL argument is
falsy), an empty history entry, a switch to the new tab, then `navigate`
when a URL was supplied. Returns the new state and the new tab's id. -/
def createNewTab (s : BState) (url : Option String) : BState × Nat :=
  let n := s.tabIdCounter + 1
  let tab : Tab := { id := n, title := "New Tab", url := url, favicon := none,
                     isHome := !truthy url }
  let s1 : BState := { s with tabIdCounter := n,
                              tabs := s.tabs ++ [tab],
                              history := s.history ++ [(n, Hist.init)] }
  let s2 := switchToTab s1 n
  (if truthy url then navigate s2 (url.getD "") else s2, n)

/-- `BrowserCore.closeTab` (llm-providers.js lines 942–957): an unknown id is
a no-op; otherwise the tab is spliced out and its history entry deleted;
then, if no tab remains, a fresh (home) tab is created, else if the closed
tab was the active one, the tab at `min(index, tabs.length - 1)` — against
the post-removal length — becomes active. -/
def closeTab (s : BState) (tabId : Nat) : BState :=
  match findIndex (fun t => t.id = tabId) s.tabs with
  | none => s
  | some index =>
    let s1 : BState := { s with tabs := s.tabs.eraseIdx index,
                                history := s.history.filter (fun p => p.1 ≠ tabId) }
    if s1.tabs.length = 0 then (createNewTab s1 none).1
    else if s.activeTabId = some tabId then
      match s1.tabs[min index (s1.tabs.length - 1)]? with
      | some t => switchToTab s1 t.id
      | none => s1
    else s1

/-- `BrowserCore.goBack` (llm-providers.js lines 1118–1132), UI dropped: with
an active tab, an existing history entry and `index > 0`, the history steps
back (`histBack`), `stack[index]` is assigned to the tab and loaded;
otherwise a no-op. -/
def goBack (s : BState) : BState :=
  match getActiveTab s with
  | none => s
  | some tab =>
    match findHist s tab.id with
    | none => s
    | some h =>
      if 0 < h.index then
        let h2 := histBack h
        let url := h2.stack.getD h2.index.toNat ""
        { s with
          history := s.history.map fun p => if p.1 = tab.id then (p.1, h2) else p,
          tabs := s.tabs.map fun t => if t.id = tab.id then { t with url := some url } else t,
          loadRequest := some url }
      else s

/-- `BrowserCore.goForward` (llm-providers.js lines 1134–1148), UI dropped:
the mirror image of `goBack` with guard `index < stack.length - 1` and
`histForward`. -/
def goForward (s : BState) : BState :=
  match getActiveTab s with
  | none => s
  | some tab =>
    match findHist s tab.id with
    | none => s
    | some h =>
      if h.index < (h.stack.length : Int) - 1 then
        let h2 := histForward h
        let url := h2.stack.getD h2.index.toNat ""
        { s with
          history := s.history.map fun p => if p.1 = tab.id then (p.1, h2) else p,
          tabs := s.tabs.map fun t => if t.id = tab.id then { t with url := some url } else t,
          loadRequest := some url }
      else s

/-! ## Agent element resolution (`Agent.executeIframeAction`,
settings.js lines 375–461) -/

/-- One `<option>` of a select element: its label text (`opt.text`) and its
`value`. -/
structure OptionEl where
  text : String
  value : String
  deriving Repr, DecidableEq

/-- A DOM element as the agent observes it: id, tag name (stored lowercased;
the DOM's `tagName` is the uppercased form), nullable `textContent`, `value`
and `placeholder`, whether it carries an `onclick` handler, and — meaningful
for select elements — its option list. -/
structure Elem where
  id : String
  tag : String
  textContent : Option String
  value : Option String
  placeholder : Option String
  hasOnclick : Bool
  options : List OptionEl
  deriving Repr, DecidableEq

/-- A `<label>` element as strategy 4 reads it: its text, its `for`
attribute (`htmlFor`, empty when absent), and the control
`label.querySelector('input, textarea, select')` finds inside it. -/
structure LabelEl where
  textContent : Option String
  htmlFor : String
  innerControl : Option Elem
  deriving Repr, DecidableEq

/-- A reachable iframe document: its elements in document order, its labels
in document order, and the platform CSS selector engine standing in for
`doc.querySelector`; `none` covers both a selector matching nothing and a
malformed selector, whose exception the code swallows
(settings.js lines 393–396). -/
structure Document where
  elements : List Elem
  labels : List LabelEl
  querySelectorFn : String → Option Elem

/-- `doc.getElementById(t)`: the first element whose id is exactly `t`; the
empty string never identifies an element. -/
def getElementById (doc : Document) (t : String) : Option Elem :=
  if t = "" then none else doc.elements.find? (fun e => e.id = t)

/-- Substring containment on character lists. -/
def listIncludes (pat : List Char) : List Char → Bool
  | [] => pat.isEmpty
  | c :: cs => pat.isPrefixOf (c :: cs) || listIncludes pat cs

/-- JavaScript `String.prototype.includes`. -/
def strIncludes (s pat : String) : Bool :=
  listIncludes pat.toList s.toList

/-- `x?.toLowerCase().includes(target)` on a nullable string: `null`
propagates to a falsy result. -/
def optIncludes (x : Option String) (target : String) : Bool :=
  match x with
  | none => false
  | some s => strIncludes (jsToLower s) target

/-- Membership in `doc.querySelectorAll('a, button, input, [onclick]')`
(settings.js line 400): anchor, button and input tags, plus any element
carrying a click handler. -/
def isInteractive (e : Elem) : Bool :=
  e.tag = "a" || e.tag = "button" || e.tag = "input" || e.hasOnclick

/-- Strategy 3 (settings.js lines 398–406): the first element of the
interactive set whose text, value or placeholder contains the lowercased
target. -/
def findByText (doc : Document) (target : String) : Option Elem :=
  (doc.elements.filter isInteractive).find? fun e =>
    optIncludes e.textContent target || optIncludes e.value target ||
      optIncludes e.placeholder target

/-- Strategy 4 (settings.js lines 408–418): the first label whose text
contains the target resolves to `getElementById(label.htmlFor)` or, failing
that, to the control inside the label; the loop breaks at that label either
way, so a label matching with neither leaves the element unresolved. -/
def findByLabel (doc : Document) (target : String) : Option Elem :=
  match doc.labels.find? (fun l => optIncludes l.textContent target) with
  | none => none
  | some l =>
    match getElementById doc l.htmlFor with
    | some e => some e
    | none => l.innerControl

/-- The element-resolution block of `Agent.executeIframeAction`
(settings.js lines 385–418): the target is lowercased once
(`action.target.toLowerCase()`), then four strategies run in order — exact
id, CSS selector (exceptions swallowed), text/value/placeholder containment
over the interactive elements, label text — stopping at the first hit. -/
def resolveElement (doc : Document) (rawTarget : String) : Option Elem :=
  let target := jsToLower rawTarget
  match getElementById doc target with
  | some e => some e
  | none =>
    match doc.querySelectorFn target with
    | some e => some e
    | none =>
      match findByText doc target with
      | some e => some e
      | none => findByLabel doc target

/-- The `select` branch of `Agent.executeIframeAction`
(settings.js lines 441–452) on a resolved element: on a select element
(`tagName === 'SELECT'`), the first option whose label text or value
contains the action's value case-insensitively is assigned to
`element.value` and a `change` event is dispatched; with no matching option
nothing is touched. The branch returns `true` in every case. Result:
`(element afterwards, whether change was dispatched, returned success)`. -/
def executeSelect (el : Elem) (v : String) : Elem × Bool × Bool :=
  if el.tag = "select" then
    match el.options.find? (fun opt =>
        strIncludes (jsToLower opt.text) (jsToLower v) ||
          strIncludes (jsToLower opt.value) (jsToLower v)) with
    | some opt => ({ el with value := some opt.value }, true, true)
    | none => (el, false, true)
  else (el, false, true)

/-! ## Agent batch execution (`Agent.executeActions`,
settings.js lines 466–493) -/

/-- A parsed agent action (the object shape `Agent.parseCommand` produces,
settings.js lines 237–301): a `type` tag plus the optional fields the type
uses. -/
structure Action where
  type : String
  target : Option String := none
  value : Option String := none
  url : Option String := none
  direction : Option String := none
  deriving Repr, DecidableEq

/-- What one `await this.executeAction(action)` call did: returned a
boolean, or threw with a message. -/
inductive Outcome where
  | ok (success : Bool)
  | threw (msg : String)
  deriving Repr, DecidableEq

/-- One entry of the `results` array: `{ action, success }` on a normal
return, `{ action, success: false, error }` when the action threw. -/
structure ActionResult where
  action : Action
  success : Bool
  error : Option String
  deriving Repr, DecidableEq

/-- The `for (const action of actions)` loop of `Agent.executeActions`
(settings.js lines 477–487), each action paired with the outcome its
`executeAction` call produces. The fixed 500 ms inter-action delay only
suspends; it adds nothing to the accumulated results. -/
def runBatch : List (Action × Outcome) → List ActionResult
  | [] => []
  | (a, .ok b) :: rest => { action := a, success := b, error := none } :: runBatch rest
  | (a, .threw m) :: rest =>
    { action := a, success := false, error := some m } :: runBatch rest

/-- `Agent.executeActions` (settings.js lines 466–493): a call while a batch
is already running (`this.isRunning`) returns without results (`none`);
otherwise the loop runs every action in order and the accumulated result
list is returned. -/
def executeActions (isRunning : Bool) (steps : List (Action × Outcome)) :
    Option (List ActionResult) :=
  if isRunning then none else some (runBatch steps)

/-- The result `{ action, success }` or `{ action, success: false, error }`
of a single loop iteration, as a function of the call's outcome. -/
def stepResult : Action × Outcome → ActionResult
  | (a, .ok b) => { action := a, success := b, error := none }
  | (a, .threw m) => { action := a, success := false, error := some m }

/-! ## Concrete instances

Small documents, elements and registry states evaluated in witnesses and
counterexamples. `noSelector` is a selector engine finding nothing: the
lowercased targets used below (`submit`, `country`) are syntactically valid
type selectors naming tags none of these documents contain, so
`doc.querySelector` returns `null` without throwing on them. -/

def noSelector : String → Option Elem := fun _ => none

def elemIdSubmit : Elem :=
  { id := "Submit", tag := "div", textContent := some "other", value := none,
    placeholder := none, hasOnclick := false, options := [] }

def elemTextSubmit : Elem :=
  { id := "b1", tag := "button", textContent := some "Submit here", value := none,
    placeholder := none, hasOnclick := false, options := [] }

/-- A document with an element whose id is exactly `Submit` and a different
button whose text contains `Submit`. -/
def docCase : Document :=
  { elements := [elemIdSubmit, elemTextSubmit], labels := [],
    querySelectorFn := noSelector }

def elemIdLower : Elem :=
  { id := "submit", tag := "div", textContent := some "other", value := none,
    placeholder := none, hasOnclick := false, options := [] }

/-- As `docCase`, but with the first element's id already lowercased. -/
def docLower : Document :=
  { elements := [elemIdLower, elemTextSubmit], labels := [],
    querySelectorFn := noSelector }

def elemSelectCountry : Elem :=
  { id := "s1", tag := "select", textContent := some "choose country",
    value := none, placeholder := none, hasOnclick := false,
    options := [{ text := "France", value := "fr" }] }

/-- A document whose only element is a select element whose text contains
the target `country`. -/
def docSelectOnly : Document :=
  { elements := [elemSelectCountry], labels := [], querySelectorFn := noSelector }

def elemButtonCountry : Elem :=
  { id := "b2", tag := "button", textContent := some "country picker",
    value := none, placeholder := none, hasOnclick := false, options := [] }

def docButtonOnly : Document :=
  { elements := [elemButtonCountry], labels := [], querySelectorFn := noSelector }

/-- A select element whose single option matches neither by label text nor
by value against the action value `blue`. -/
def selectNoMatch : Elem :=
  { id := "s2", tag := "select", textContent := none, value := some "r",
    placeholder := none, hasOnclick := false,
    options := [{ text := "Red", value := "r" }] }

def clickOk : Action := { type := "click", target := some "ok" }
def typeQuery : Action := { type := "type", target := some "q", value := some "x" }
def scrollDown : Action := { type := "scroll", direction := some "down" }

/-- A three-action batch whose second action throws. -/
def batch3 : List (Action × Outcome) :=
  [(clickOk, .ok true), (typeQuery, .threw "boom"), (scrollDown, .ok false)]

def tabOne : Tab :=
  { id := 1, title := "A", url := some "https://a.example", favicon := none,
    isHome := false }

def tabTwo : Tab :=
  { id := 2, title := "B", url := some "https://b.example", favicon := none,
    isHome := false }

/-- A registry with two tabs, the first active. -/
def twoTabState : BState :=
  { tabs := [tabOne, tabTwo], activeTabId := some 1,
    history := [(1, ⟨["https://a.example"], 0⟩), (2, ⟨["https://b.example"], 0⟩)],
    tabIdCounter := 2, loadRequest := some "https://a.example" }

/-! ## Helper lemmas -/

lemma histInv_start : HistInv Hist.init := by decide

lemma histInv_push (h : Hist) (url : String) : HistInv (histPush h url) := by
  unfold HistInv histPush
  simp only [List.length_append, List.length_take, List.length_cons, List.length_nil]
  refine ⟨⟨by omega, by omega⟩, ?_⟩
  constructor
  · intro hc; exfalso; omega
  · intro hc
    exact absurd hc (by simp)

lemma histInv_back (h : Hist) (hi : HistInv h) : HistInv (histBack h) := by
  obtain ⟨⟨h1, h2⟩, h3⟩ := hi
  unfold HistInv histBack
  split
  · rename_i hlt
    dsimp only
    refine ⟨⟨by omega, by omega⟩, ?_⟩
    constructor
    · intro hc; exfalso; omega
    · intro hc
      have := h3.mpr hc
      omega
  · exact ⟨⟨h1, h2⟩, h3⟩

lemma histInv_forward (h : Hist) (hi : HistInv h) : HistInv (histForward h) := by
  obtain ⟨⟨h1, h2⟩, h3⟩ := hi
  unfold HistInv histForward
  split
  · rename_i hlt
    dsimp only
    refine ⟨⟨by omega, by omega⟩, ?_⟩
    constructor
    · intro hc; exfalso; omega
    · intro hc
      rw [hc] at hlt
      have := h3.mpr hc
      simp at hlt
      omega
  · exact ⟨⟨h1, h2⟩, h3⟩

lemma histInv_step (h : Hist) (op : HistOp) (hi : HistInv h) :
    HistInv (histStep h op) := by
  cases op with
  | push url => exact histInv_push h url
  | back => exact histInv_back h hi
  | forward => exact histInv_forward h hi

lemma histInv_run (h : Hist) (ops : List HistOp) (hi : HistInv h) :
    HistInv (histRun h ops) := by
  induction ops generalizing h with
  | nil => exact hi
  | cons op rest ih => exact ih _ (histInv_step h op hi)

lemma findIndex_some_lt {α : Type} {p : α → Bool} {l : List α} {i : Nat}
    (h : findIndex p l = some i) : i < l.length := by
  induction l generalizing i with
  | nil => simp [findIndex] at h
  | cons a l ih =>
    simp only [findIndex] at h
    split at h
    · cases h
      simp
    · rw [Option.map_eq_some'] at h
      obtain ⟨j, hf, hji⟩ := h
      have := ih hf
      simp only [List.length_cons]
      omega

lemma findIndex_some_get {α : Type} {p : α → Bool} {l : List α} {i : Nat}
    (h : findIndex p l = some i) :
    ∃ hlt : i < l.length, p (l.get ⟨i, hlt⟩) = true := by
  induction l generalizing i with
  | nil => simp [findIndex] at h
  | cons a l ih =>
    simp only [findIndex] at h
    split at h
    · rename_i hpa
      cases h
      exact ⟨by simp, hpa⟩
    · rw [Option.map_eq_some'] at h
      obtain ⟨j, hf, hji⟩ := h
      obtain ⟨hlt, hpj⟩ := ih hf
      subst hji
      exact ⟨by simpa using Nat.succ_lt_succ hlt, hpj⟩

lemma findIndex_isSome_of_exists {α : Type} {p : α → Bool} {l : List α}
    (h : ∃ x ∈ l, p x = true) : (findIndex p l).isSome := by
  induction l with
  | nil => simp at h
  | cons a l ih =>
    simp only [findIndex]
    split
    · simp
    · rename_i hpa
      obtain ⟨x, hx, hpx⟩ := h
      rcases List.mem_cons.mp hx with rfl | hx2
      · exact absurd hpx hpa
      · simpa [Option.isSome_map] using ih ⟨x, hx2, hpx⟩

/-- With pairwise-distinct tab ids, erasing the position found for an id
leaves no tab with that id behind. -/
lemma eraseIdx_no_id {l : List Tab} {i : Nat} {tid : Nat}
    (hnd : (l.map Tab.id).Nodup) (hi : i < l.length)
    (hid : (l.get ⟨i, hi⟩).id = tid) :
    ∀ t ∈ l.eraseIdx i, t.id ≠ tid := by
  intro t ht hc
  rw [List.mem_eraseIdx_iff_getElem] at ht
  obtain ⟨j, hjlen, hji, hget⟩ := ht
  have h1 : Tab.id (l.get ⟨j, hjlen⟩) = tid := by
    rw [List.get_eq_getElem, hget, hc]
  have hmap : (l.map Tab.id).get ⟨j, by simpa using hjlen⟩ =
      (l.map Tab.id).get ⟨i, by simpa using hi⟩ := by
    simp only [List.get_eq_getElem, List.getElem_map]
    rw [List.get_eq_getElem] at h1
    rw [List.get_eq_getElem] at hid
    rw [h1, hid]
  have heq := (List.Nodup.get_inj_iff hnd).mp hmap
  exact hji (by simpa using congrArg Fin.val heq)

lemma runBatch_eq_map (steps : List (Action × Outcome)) :
    runBatch steps = steps.map stepResult := by
  induction steps with
  | nil => rfl
  | cons s rest ih =>
    obtain ⟨a, o⟩ := s
    cases o <;> simp [runBatch, stepResult, ih]

lemma switchToTab_tabs (s : BState) (tid : Nat) : (switchToTab s tid).tabs = s.tabs := by
  unfold switchToTab
  cases findTab s tid <;> rfl

lemma switchToTab_active_of_mem {s : BState} {t : Tab} (ht : t ∈ s.tabs) :
    (switchToTab s t.id).activeTabId = some t.id := by
  unfold switchToTab findTab
  cases hf : s.tabs.find? (fun x => x.id = t.id) with
  | none =>
    exfalso
    have := List.find?_eq_none.mp hf t ht
    simp at this
  | some tab => rfl

lemma createNewTab_none_tabs (s : BState) :
    (createNewTab s none).1.tabs =
      s.tabs ++ [Tab.mk (s.tabIdCounter + 1) "New Tab" none none true] := by
  unfold createNewTab
  simp only [truthy, Bool.not_false, if_neg (by simp : ¬false = true)]
  rw [switchToTab_tabs]

/-! ## Claims -/

/-- Claim C1: for every sequence of push (`navigate`), back (`goBack`) and
forward (`goForward`) operations applied to a tab's freshly created
NavigationHistory, the index stays within `[-1, stack.length - 1]`; it is
`-1` exactly when the stack is empty, and with a non-empty stack
`0 ≤ index < stack.length`. -/
theorem C1_history_index_invariant (ops : List HistOp) :
    (-1 ≤ (histRun Hist.init ops).index ∧
        (histRun Hist.init ops).index ≤
          ((histRun Hist.init ops).stack.length : Int) - 1) ∧
      ((histRun Hist.init ops).index = -1 ↔ (histRun Hist.init ops).stack = []) ∧
      ((histRun Hist.init ops).stack ≠ [] →
        0 ≤ (histRun Hist.init ops).index ∧
          (histRun Hist.init ops).index <
            ((histRun Hist.init ops).stack.length : Int)) := by
  obtain ⟨⟨h1, h2⟩, h3⟩ := histInv_run Hist.init ops histInv_start
  refine ⟨⟨h1, h2⟩, h3, fun hne => ?_⟩
  have : (histRun Hist.init ops).index ≠ -1 := fun hc => hne (h3.mp hc)
  omega

theorem C1_history_index_invariant_witness :
    (histRun Hist.init [HistOp.push "a", HistOp.push "b", HistOp.back]).stack ≠ [] ∧
      0 ≤ (histRun Hist.init [HistOp.push "a", HistOp.push "b", HistOp.back]).index ∧
        (histRun Hist.init [HistOp.push "a", HistOp.push "b", HistOp.back]).index <
          ((histRun Hist.init
              [HistOp.push "a", HistOp.push "b", HistOp.back]).stack.length : Int) :=
  ⟨by decide,
    (C1_history_index_invariant [HistOp.push "a", HistOp.push "b", HistOp.back]).2.2
      (by decide)⟩

/-- Claim C2: pushing a URL first truncates the stack to its first
`index + 1` entries, then appends the URL, and leaves the index at the new
`stack.length - 1`; in particular a push after a back keeps only the entries
up to (and including) the pre-push index and discards everything beyond
it. -/
theorem C2_push_truncates (h : Hist) (url : String) :
    (histPush h url).stack = h.stack.take (h.index + 1).toNat ++ [url] ∧
      (histPush h url).index = ((histPush h url).stack.length : Int) - 1 ∧
      (0 < h.index →
        (histPush (histBack h) url).stack = h.stack.take h.index.toNat ++ [url]) := by
  refine ⟨rfl, rfl, fun hb => ?_⟩
  unfold histBack
  rw [if_pos hb]
  unfold histPush
  dsimp only
  have he : h.index - 1 + 1 = h.index := by omega
  rw [he]

theorem C2_push_truncates_witness :
    0 < (Hist.mk ["a", "b", "c"] 2).index ∧
      (histPush (histBack ⟨["a", "b", "c"], 2⟩) "d").stack =
        (Hist.mk ["a", "b", "c"] 2).stack.take
          (Hist.mk ["a", "b", "c"] 2).index.toNat ++ ["d"] :=
  ⟨by decide, (C2_push_truncates ⟨["a", "b", "c"], 2⟩ "d").2.2 (by decide)⟩

/-- Claim C3: back and forward never change the stack's contents or length;
each is a silent no-op (no error, nothing changed) when its guard fails; and
when back is legal and leaves forward legal (`0 < index < stack.length`),
back followed by forward restores the entire prior history — in particular
the prior current URL `stack[index]`. -/
theorem C3_back_forward_roundtrip (h : Hist) :
    (histBack h).stack = h.stack ∧
      (histForward h).stack = h.stack ∧
      (¬0 < h.index → histBack h = h) ∧
      (¬h.index < (h.stack.length : Int) - 1 → histForward h = h) ∧
      (0 < h.index → h.index < (h.stack.length : Int) →
        histForward (histBack h) = h ∧
          (histForward (histBack h)).stack.getD
              (histForward (histBack h)).index.toNat "" =
            h.stack.getD h.index.toNat "") := by
  refine ⟨?_, ?_, ?_, ?_, ?_⟩
  · unfold histBack; split <;> rfl
  · unfold histForward; split <;> rfl
  · intro hc; unfold histBack; rw [if_neg hc]
  · intro hc; unfold histForward; rw [if_neg hc]
  · intro h1 h2
    have hrt : histForward (histBack h) = h := by
      unfold histBack
      rw [if_pos h1]
      unfold histForward
      dsimp only
      rw [if_pos (by omega)]
      cases h with
      | mk stack index =>
        dsimp only
        congr 1
        omega
    exact ⟨hrt, by rw [hrt]⟩

theorem C3_back_forward_roundtrip_witness :
    (0 < (Hist.mk ["a", "b"] 1).index ∧
        (Hist.mk ["a", "b"] 1).index < ((Hist.mk ["a", "b"] 1).stack.length : Int)) ∧
      histForward (histBack ⟨["a", "b"], 1⟩) = ⟨["a", "b"], 1⟩ :=
  ⟨by decide,
    ((C3_back_forward_roundtrip ⟨["a", "b"], 1⟩).2.2.2.2 (by decide) (by decide)).1⟩

/-- Claim C5: `parseUrl` classifies free text by three rules tried in order
with the first match winning — input parsing as an absolute (scheme-bearing)
URL is used verbatim, a bare-domain shape is prefixed with `https://`,
anything else becomes a search URL over the percent-encoded input — and
concretely `example.com` resolves to `https://example.com`,
`http://x.com/a` is returned unchanged, and `hello world` resolves to a
search URL containing the percent-encoded phrase. -/
theorem C5_parseUrl_rules (input : String) :
    (parsesAsURL input = true → parseUrl input = input) ∧
      (parsesAsURL input = false → matchesDomain input = true →
        parseUrl input = "https://" ++ input) ∧
      (parsesAsURL input = false → matchesDomain input = false →
        parseUrl input =
          "https://www.google.com/search?q=" ++ encodeURIComponent input) ∧
      parseUrl "example.com" = "https://example.com" ∧
      parseUrl "http://x.com/a" = "http://x.com/a" ∧
      parseUrl "hello world" = "https://www.google.com/search?q=hello%20world" := by
  refine ⟨?_, ?_, ?_, by decide, by decide, by decide⟩
  · intro h1; unfold parseUrl; rw [if_pos h1]
  · intro h1 h2
    unfold parseUrl
    rw [if_neg (by simp [h1]), if_pos h2]
  · intro h1 h2
    unfold parseUrl
    rw [if_neg (by simp [h1]), if_neg (by simp [h2])]

theorem C5_parseUrl_rules_witness :
    parsesAsURL "http://x.com/a" = true ∧ parseUrl "http://x.com/a" = "http://x.com/a" :=
  ⟨by decide, (C5_parseUrl_rules "http://x.com/a").1 (by decide)⟩

/-- Claim C8: with no batch already in flight, `executeActions` returns
exactly one `ActionResult` per action, in input order: the `i`-th result is
`stepResult` of the `i`-th action–outcome pair, so an action whose execution
throws is recorded as a failed result carrying the message without aborting
the rest, and every other action's result is determined by its own
outcome. -/
theorem C8_batch_results (steps : List (Action × Outcome)) :
    ∃ rs, executeActions false steps = some rs ∧
      rs.length = steps.length ∧
      ∀ i (hi : i < steps.length) (hr : i < rs.length),
        rs.get ⟨i, hr⟩ = stepResult (steps.get ⟨i, hi⟩) := by
  refine ⟨runBatch steps, rfl, ?_, ?_⟩
  · rw [runBatch_eq_map]
    simp
  · intro i hi hr
    simp only [List.get_eq_getElem]
    simp [runBatch_eq_map]

theorem C8_batch_results_witness :
    executeActions false batch3 =
        some [{ action := clickOk, success := true, error := none },
          { action := typeQuery, success := false, error := some "boom" },
          { action := scrollDown, success := false, error := none }] ∧
      (∃ rs, executeActions false batch3 = some rs ∧
        rs.length = batch3.length ∧
        ∀ i (hi : i < batch3.length) (hr : i < rs.length),
          rs.get ⟨i, hr⟩ = stepResult (batch3.get ⟨i, hi⟩)) :=
  ⟨by decide, C8_batch_results batch3⟩

/-- Claim C9: the select branch matches an option by case-insensitive
containment of the action's value in the option's label text or value; with
a matching option the select's value is set and a change event dispatched;
with no matching option the branch still reports success while the element
is left unchanged and no change event is dispatched. -/
theorem C9_select_quirk (el : Elem) (v : String) (hsel : el.tag = "select") :
    (executeSelect el v).2.2 = true ∧
      (∀ opt, el.options.find? (fun opt =>
            strIncludes (jsToLower opt.text) (jsToLower v) ||
              strIncludes (jsToLower opt.value) (jsToLower v)) = some opt →
        executeSelect el v = ({ el with value := some opt.value }, true, true)) ∧
      ((∀ opt ∈ el.options,
          strIncludes (jsToLower opt.text) (jsToLower v) = false ∧
            strIncludes (jsToLower opt.value) (jsToLower v) = false) →
        executeSelect el v = (el, false, true)) := by
  refine ⟨?_, ?_, ?_⟩
  · unfold executeSelect
    rw [if_pos hsel]
    cases hf : el.options.find? (fun opt =>
        strIncludes (jsToLower opt.text) (jsToLower v) ||
          strIncludes (jsToLower opt.value) (jsToLower v)) with
    | none => rfl
    | some opt => rfl
  · intro opt hf
    unfold executeSelect
    rw [if_pos hsel, hf]
  · intro hnone
    unfold executeSelect
    rw [if_pos hsel]
    have hf : el.options.find? (fun opt =>
        strIncludes (jsToLower opt.text) (jsToLower v) ||
          strIncludes (jsToLower opt.value) (jsToLower v)) = none := by
      rw [List.find?_eq_none]
      intro opt hm
      simp [(hnone opt hm).1, (hnone opt hm).2]
    rw [hf]

theorem C9_select_quirk_witness :
    (selectNoMatch.tag = "select" ∧
        ∀ opt ∈ selectNoMatch.options,
          strIncludes (jsToLower opt.text) (jsToLower "blue") = false ∧
            strIncludes (jsToLower opt.value) (jsToLower "blue") = false) ∧
      executeSelect selectNoMatch "blue" = (selectNoMatch, false, true) :=
  ⟨⟨by decide, by decide⟩,
    (C9_select_quirk selectNoMatch "blue" (by decide)).2.2 (by decide)⟩

/-- Claim C10: `navigate` on empty or whitespace-only input returns
immediately, changing nothing in the browser state — no tab field, no
history stack or index, no load state. -/
theorem C10_navigate_blank_noop (s : BState) (input : String)
    (hblank : jsTrim input = "") : navigate s input = s := by
  unfold navigate
  rw [if_pos hblank]

theorem C10_navigate_blank_noop_witness :
    (jsTrim "  " = "") ∧ navigate twoTabState "  " = twoTabState :=
  ⟨by decide, C10_navigate_blank_noop twoTabState "  " (by decide)⟩

/-- Claim C6 counterexample: in `docCase` the first element's id is exactly
the target string `Submit` and a different button's text contains `Submit`,
yet resolution returns the button, not the id-matched element: the code
lowercases the target before the case-sensitive `getElementById` lookup, so
the id strategy misses, and the containment strategy (which lowercases both
sides) hits the button. -/
theorem C6_counterexample :
    elemIdSubmit.id = "Submit" ∧
      elemIdSubmit ∈ docCase.elements ∧
      elemTextSubmit ∈ docCase.elements ∧
      elemTextSubmit ≠ elemIdSubmit ∧
      strIncludes (elemTextSubmit.textContent.getD "") "Submit" = true ∧
      resolveElement docCase "Submit" = some elemTextSubmit := by
  decide

/-- Claim C6, amended: resolution works on the lowercased target: the four
strategies — exact id match against the lowercased target, CSS selector,
text/value/placeholder containment, label text — run in this fixed order,
stopping at the first hit; in particular, when an element's id equals the
lowercased target (and the id lookup finds it), resolution returns that
element no matter what the later strategies would match. -/
theorem C6_resolution_order (doc : Document) (rawTarget : String) (e : Elem) :
    (getElementById doc (jsToLower rawTarget) = some e →
        resolveElement doc rawTarget = some e) ∧
      (getElementById doc (jsToLower rawTarget) = none →
        doc.querySelectorFn (jsToLower rawTarget) = some e →
        resolveElement doc rawTarget = some e) ∧
      (getElementById doc (jsToLower rawTarget) = none →
        doc.querySelectorFn (jsToLower rawTarget) = none →
        findByText doc (jsToLower rawTarget) = some e →
        resolveElement doc rawTarget = some e) ∧
      (getElementById doc (jsToLower rawTarget) = none →
        doc.querySelectorFn (jsToLower rawTarget) = none →
        findByText doc (jsToLower rawTarget) = none →
        resolveElement doc rawTarget = findByLabel doc (jsToLower rawTarget)) := by
  refine ⟨?_, ?_, ?_, ?_⟩
  · intro h1
    simp only [resolveElement]
    rw [h1]
  · intro h1 h2
    simp only [resolveElement]
    rw [h1, h2]
  · intro h1 h2 h3
    simp only [resolveElement]
    rw [h1, h2, h3]
  · intro h1 h2 h3
    simp only [resolveElement]
    rw [h1, h2, h3]

theorem C6_resolution_order_witness :
    getElementById docLower (jsToLower "Submit") = some elemIdLower ∧
      resolveElement docLower "Submit" = some elemIdLower :=
  ⟨by decide, (C6_resolution_order docLower "Submit" elemIdLower).1 (by decide)⟩

/-- Claim C7 counterexample: the only element of `docSelectOnly` is a select
element whose text contains the target `country`, but strategy 3 queries
`a, button, input, [onclick]` — select (and textarea) elements are not in
that set — so the containment match, and with it the whole resolution, finds
nothing, where the claim requires the select element to be a candidate and
be found. -/
theorem C7_counterexample :
    elemSelectCountry ∈ docSelectOnly.elements ∧
      elemSelectCountry.tag = "select" ∧
      strIncludes (jsToLower (elemSelectCountry.textContent.getD "")) "country" = true ∧
      isInteractive elemSelectCountry = false ∧
      findByText docSelectOnly "country" = none ∧
      resolveElement docSelectOnly "country" = none := by
  decide

/-- Claim C7, amended: the text/value/placeholder containment match of
strategy 3 ranges exactly over the elements matching
`a, button, input, [onclick]` — anchors, buttons, inputs and click-handler
carriers, but not select or textarea elements; every element of that set is
a candidate, and a containment hit inside it is exactly what makes
strategy 3 succeed. -/
theorem C7_text_candidates (doc : Document) (target : String) :
    (findByText doc target).isSome ↔
      ∃ e ∈ doc.elements,
        (e.tag = "a" ∨ e.tag = "button" ∨ e.tag = "input" ∨ e.hasOnclick = true) ∧
          (optIncludes e.textContent target = true ∨
            optIncludes e.value target = true ∨
            optIncludes e.placeholder target = true) := by
  unfold findByText
  rw [List.find?_isSome]
  constructor
  · rintro ⟨e, he, hp⟩
    rw [List.mem_filter] at he
    refine ⟨e, he.1, ?_, ?_⟩
    · have := he.2
      simp only [isInteractive, Bool.or_eq_true, decide_eq_true_eq] at this
      tauto
    · simp only [Bool.or_eq_true] at hp
      tauto
  · rintro ⟨e, he, hint, hmatch⟩
    refine ⟨e, List.mem_filter.mpr ⟨he, ?_⟩, ?_⟩
    · simp only [isInteractive, Bool.or_eq_true, decide_eq_true_eq]
      tauto
    · simp only [Bool.or_eq_true]
      tauto

/-- Claim C4: closing a present tab — under the registry invariants that tab
ids are pairwise distinct and bounded by the id counter — removes that tab
and never leaves the registry empty: if the closed tab was the last one,
exactly one fresh home tab (with an id never used before) exists afterwards;
and if the closed tab was the active one of a multi-tab registry, activation
falls to the tab now at position `min(originalIndex, tabCount - 1)` of the
post-removal tab list. -/
theorem C4_closeTab (s : BState) (tabId : Nat)
    (hpresent : ∃ t ∈ s.tabs, t.id = tabId)
    (hnodup : (s.tabs.map Tab.id).Nodup)
    (hbound : ∀ t ∈ s.tabs, t.id ≤ s.tabIdCounter) :
    (∀ t ∈ (closeTab s tabId).tabs, t.id ≠ tabId) ∧
      1 ≤ (closeTab s tabId).tabs.length ∧
      (s.tabs.length = 1 →
        ∃ t, (closeTab s tabId).tabs = [t] ∧ t.isHome = true ∧
          ∀ t2 ∈ s.tabs, t.id ≠ t2.id) ∧
      (s.activeTabId = some tabId → 1 < s.tabs.length →
        ∃ index, findIndex (fun t => t.id = tabId) s.tabs = some index ∧
          ∃ hlt : min index ((s.tabs.eraseIdx index).length - 1) <
              (s.tabs.eraseIdx index).length,
            (closeTab s tabId).activeTabId =
              some (((s.tabs.eraseIdx index).get
                ⟨min index ((s.tabs.eraseIdx index).length - 1), hlt⟩).id)) := by
  obtain ⟨t0, ht0, hid0⟩ := hpresent
  have hsome : (findIndex (fun t => t.id = tabId) s.tabs).isSome :=
    findIndex_isSome_of_exists ⟨t0, ht0, by simp [hid0]⟩
  obtain ⟨index, hfind⟩ := Option.isSome_iff_exists.mp hsome
  obtain ⟨hidxlt, hpidx⟩ := findIndex_some_get hfind
  have hidx : (s.tabs.get ⟨index, hidxlt⟩).id = tabId := by simpa using hpidx
  have herase : ∀ t ∈ s.tabs.eraseIdx index, t.id ≠ tabId :=
    eraseIdx_no_id hnodup hidxlt hidx
  have hlenerase : (s.tabs.eraseIdx index).length + 1 = s.tabs.length :=
    List.length_eraseIdx_add_one hidxlt
  have htid_le : tabId ≤ s.tabIdCounter := hid0 ▸ hbound t0 ht0
  by_cases hempty : (s.tabs.eraseIdx index).length = 0
  · -- the closed tab was the only one: a fresh home tab is created
    have hclose : closeTab s tabId =
        (createNewTab
          { s with
            tabs := s.tabs.eraseIdx index,
            history := s.history.filter (fun p => p.1 ≠ tabId) } none).1 := by
      simp only [closeTab, hfind]
      rw [if_pos hempty]
    have htabs : (closeTab s tabId).tabs =
        [Tab.mk (s.tabIdCounter + 1) "New Tab" none none true] := by
      rw [hclose, createNewTab_none_tabs]
      have : s.tabs.eraseIdx index = [] := List.length_eq_zero.mp hempty
      simp [this]
    refine ⟨?_, ?_, ?_, ?_⟩
    · intro t ht
      rw [htabs] at ht
      simp only [List.mem_singleton] at ht
      subst ht
      simp only
      omega
    · rw [htabs]; simp
    · intro _
      refine ⟨Tab.mk (s.tabIdCounter + 1) "New Tab" none none true, htabs, rfl, ?_⟩
      intro t2 ht2
      have := hbound t2 ht2
      simp only
      omega
    · intro _ hgt
      omega
  · -- other tabs remain
    have hlt2 : min index ((s.tabs.eraseIdx index).length - 1) <
        (s.tabs.eraseIdx index).length := by omega
    by_cases hact : s.activeTabId = some tabId
    · have hclose : closeTab s tabId =
          switchToTab
            { s with
              tabs := s.tabs.eraseIdx index,
              history := s.history.filter (fun p => p.1 ≠ tabId) }
            (((s.tabs.eraseIdx index).get
              ⟨min index ((s.tabs.eraseIdx index).length - 1), hlt2⟩).id) := by
        simp only [closeTab, hfind]
        rw [if_neg hempty, if_pos hact, List.getElem?_eq_getElem hlt2]
        simp only [List.get_eq_getElem]
      have htabs : (closeTab s tabId).tabs = s.tabs.eraseIdx index := by
        rw [hclose, switchToTab_tabs]
      refine ⟨?_, ?_, ?_, ?_⟩
      · intro t ht; exact herase t (htabs ▸ ht)
      · rw [htabs]; omega
      · intro hone; omega
      · intro _ _
        refine ⟨index, hfind, hlt2, ?_⟩
        rw [hclose]
        exact switchToTab_active_of_mem (List.get_mem _ _ _)
    · have hclose : closeTab s tabId =
          { s with
            tabs := s.tabs.eraseIdx index,
            history := s.history.filter (fun p => p.1 ≠ tabId) } := by
        simp only [closeTab, hfind]
        rw [if_neg hempty, if_neg hact]
      refine ⟨?_, ?_, ?_, ?_⟩
      · intro t ht; exact herase t (by rw [hclose] at ht; exact ht)
      · rw [hclose]; simp only; omega
      · intro hone; omega
      · intro hacts _; exact absurd hacts hact

theorem C4_closeTab_witness :
    ((∃ t ∈ twoTabState.tabs, t.id = 1) ∧
        (twoTabState.tabs.map Tab.id).Nodup ∧
        ∀ t ∈ twoTabState.tabs, t.id ≤ twoTabState.tabIdCounter) ∧
      (∀ t ∈ (closeTab twoTabState 1).tabs, t.id ≠ 1) ∧
        1 ≤ (closeTab twoTabState 1).tabs.length := by
  have h := C4_closeTab twoTabState 1 (by decide) (by decide) (by decide)
  exact ⟨⟨by decide, by decide, by decide⟩, h.1, h.2.1⟩

theorem C7_text_candidates_witness :
    (∃ e ∈ docButtonOnly.elements,
        (e.tag = "a" ∨ e.tag = "button" ∨ e.tag = "input" ∨ e.hasOnclick = true) ∧
          (optIncludes e.textContent "country" = true ∨
            optIncludes e.value "country" = true ∨
            optIncludes e.placeholder "country" = true)) ∧
      (findByText docButtonOnly "country").isSome :=
  ⟨by decide, (C7_text_candidates docButtonOnly "country").mpr (by decide)⟩

end BrowserOS
